import Mathlib

/-!
Verification development for the BankVaani repository.

The development shallowly embeds, in Lean, the parts of the code that the
specification talks about:

* the JSON values exchanged over the RPC bridge, together with executable
  models of JavaScript's JSON.parse and JSON.stringify restricted to the
  shapes the code produces and consumes;
* the RPC prompt bridge of the session view component (the three handlers
  handleChooseAccount, handleRequestPayeeAccNo, handleRequestTpin, the
  pending-prompt slot, and the user actions handleAccountSelect,
  handleAccountCancel, handleInputSubmit), as a step function on an explicit
  state that records promise resolutions and rejections by call id;
* the API routes POST /auth/login, POST /auth/logout and
  POST /connection-details, with MongoDB collections modelled as lists,
  wall-clock time as an explicit natural-number parameter (milliseconds),
  bcrypt comparison and UUID generation as explicit parameters, and the JWT
  signing step abstracted to the token's claim set.
-/

namespace BankVaani

/-! ## JSON values

Models the JavaScript values produced by JSON.parse: numbers are kept as a
decimal mantissa together with a power-of-ten exponent (the claims never
depend on float rounding, only on the grammar accepted and on small integer
values such as the -1 cancellation sentinel, written num (-1) 0). -/

inductive Json where
  | null : Json
  | bool (b : Bool) : Json
  | num (mant : Int) (exp10 : Int) : Json
  | str (s : String) : Json
  | arr (elems : List Json) : Json
  | obj (fields : List (String × Json)) : Json
deriving Repr

/-- Property lookup on a parsed object. JSON.parse keeps the LAST of
duplicate keys, so the scan prefers later fields. On non-objects the result
is none (JavaScript yields undefined); the caller models any TypeError on
null bases itself. -/
def findField : List (String × Json) → String → Option Json
  | [], _ => none
  | (k, v) :: rest, key =>
    match findField rest key with
    | some r => some r
    | none => if k = key then some v else none

/-- Member access j.key as JavaScript evaluates it on a non-null base:
undefined (none) unless the base is an object with the key. -/
def jsGet : Json → String → Option Json
  | Json.obj fs, key => findField fs key
  | _, _ => none

/-- Truthiness of a JavaScript value, as used by the routes' if tests. -/
def jsTruthy : Json → Bool
  | Json.null => false
  | Json.bool b => b
  | Json.num m _ => m != 0
  | Json.str s => s != ""
  | Json.arr _ => true
  | Json.obj _ => true

/-! ## JSON.stringify model

Fueled so that every definition reduces by kernel evaluation; the code only
ever serializes objects of depth two, far below the fuel bound. -/

def escChar (c : Char) : List Char :=
  if c = '"' then [ '\\', '"' ]
  else if c = '\\' then [ '\\', '\\' ]
  else if c = '\n' then [ '\\', 'n' ]
  else if c = '\t' then [ '\\', 't' ]
  else if c = '\r' then [ '\\', 'r' ]
  else if c = '\x08' then [ '\\', 'b' ]
  else if c = '\x0c' then [ '\\', 'f' ]
  else if c.toNat < 32 then
    let hex : Nat → Char := fun n => if n < 10 then Char.ofNat (48 + n) else Char.ofNat (87 + n)
    [ '\\', 'u', '0', '0', hex (c.toNat / 16), hex (c.toNat % 16) ]
  else [c]

def strChars (s : String) : List Char :=
  '"' :: s.data.foldr (fun c acc => escChar c ++ acc) [ '"' ]

def numChars (m : Int) (e : Int) : List Char :=
  (toString m).data ++ (if e = 0 then [] else 'e' :: (toString e).data)

def sepChars : List (List Char) → List Char
  | [] => []
  | [x] => x
  | x :: y :: rest => x ++ ',' :: sepChars (y :: rest)

def jsonChars : Nat → Json → List Char
  | 0, _ => []
  | _, Json.null => [ 'n', 'u', 'l', 'l' ]
  | _, Json.bool true => [ 't', 'r', 'u', 'e' ]
  | _, Json.bool false => [ 'f', 'a', 'l', 's', 'e' ]
  | _, Json.num m e => numChars m e
  | _, Json.str s => strChars s
  | Nat.succ fuel, Json.arr xs =>
      '[' :: (sepChars (xs.map (jsonChars fuel)) ++ [ ']' ])
  | Nat.succ fuel, Json.obj fs =>
      '{' :: (sepChars (fs.map (fun kv => strChars kv.1 ++ ':' :: jsonChars fuel kv.2)) ++ [ '}' ])

/-- Model of JSON.stringify for the values the code serializes (all of depth
at most two, far below the fuel). -/
def jsonStringify (j : Json) : String :=
  String.mk (jsonChars 8 j)

/-! ## JSON.parse model -/

def isJsonWs (c : Char) : Bool :=
  c = ' ' || c = '\t' || c = '\n' || c = '\r'

def skipWs : List Char → List Char
  | [] => []
  | c :: cs => if isJsonWs c then skipWs cs else c :: cs

def hexVal (c : Char) : Option Nat :=
  if '0' ≤ c ∧ c ≤ '9' then some (c.toNat - 48)
  else if 'a' ≤ c ∧ c ≤ 'f' then some (c.toNat - 87)
  else if 'A' ≤ c ∧ c ≤ 'F' then some (c.toNat - 55)
  else none

/-- String-body scanner for JSON.parse: consumes up to the closing quote,
decoding escapes; control characters must be escaped. -/
def parseStringBody : Nat → List Char → List Char → Option (String × List Char)
  | 0, _, _ => none
  | _, [], _ => none
  | Nat.succ fuel, c :: rest, acc =>
    if c = '"' then some (String.mk acc.reverse, rest)
    else if c = '\\' then
      match rest with
      | [] => none
      | e :: rest2 =>
        if e = '"' then parseStringBody fuel rest2 ('"' :: acc)
        else if e = '\\' then parseStringBody fuel rest2 ('\\' :: acc)
        else if e = '/' then parseStringBody fuel rest2 ('/' :: acc)
        else if e = 'b' then parseStringBody fuel rest2 ('\x08' :: acc)
        else if e = 'f' then parseStringBody fuel rest2 ('\x0c' :: acc)
        else if e = 'n' then parseStringBody fuel rest2 ('\n' :: acc)
        else if e = 'r' then parseStringBody fuel rest2 ('\r' :: acc)
        else if e = 't' then parseStringBody fuel rest2 ('\t' :: acc)
        else if e = 'u' then
          match rest2 with
          | h1 :: h2 :: h3 :: h4 :: rest3 =>
            match hexVal h1, hexVal h2, hexVal h3, hexVal h4 with
            | some a, some b, some c3, some d =>
                parseStringBody fuel rest3 (Char.ofNat (((a * 16 + b) * 16 + c3) * 16 + d) :: acc)
            | _, _, _, _ => none
          | _ => none
        else none
    else if c.toNat < 32 then none
    else parseStringBody fuel rest (c :: acc)

def takeDigits : List Char → List Char × List Char
  | [] => ([], [])
  | c :: cs =>
    if c.isDigit then
      let (d, r) := takeDigits cs
      (c :: d, r)
    else ([], c :: cs)

def digitsNat (ds : List Char) : Nat :=
  ds.foldl (fun a c => a * 10 + (c.toNat - 48)) 0

/-- Fractional part: either absent, or a dot followed by at least one digit. -/
def parseFrac : List Char → Option (List Char × List Char)
  | '.' :: r =>
    match takeDigits r with
    | ([], _) => none
    | (d, r2) => some (d, r2)
  | cs => some ([], cs)

/-- Exponent part: absent, or e/E with optional sign and at least one digit. -/
def parseExp (cs : List Char) : Option (Int × List Char) :=
  match cs with
  | c :: r =>
    if c = 'e' ∨ c = 'E' then
      let (sgn, r1) : Int × List Char :=
        match r with
        | '+' :: t => (1, t)
        | '-' :: t => (-1, t)
        | _ => (1, r)
      match takeDigits r1 with
      | ([], _) => none
      | (d, r2) => some (sgn * (digitsNat d : Int), r2)
    else some (0, c :: r)
  | [] => some (0, [])

/-- Number grammar of JSON.parse. -/
def parseNumber (cs : List Char) : Option (Json × List Char) :=
  let (neg, cs1) : Bool × List Char :=
    match cs with
    | '-' :: r => (true, r)
    | _ => (false, cs)
  match takeDigits cs1 with
  | ([], _) => none
  | (ds, cs2) =>
    if ds.length > 1 ∧ ds.head? = some '0' then none
    else
      match parseFrac cs2 with
      | none => none
      | some (fds, cs3) =>
        match parseExp cs3 with
        | none => none
        | some (ex, cs4) =>
          let mant : Int := (digitsNat (ds ++ fds) : Int)
          let mant := if neg then -mant else mant
          some (Json.num mant (ex - (fds.length : Int)), cs4)

def expectChars : List Char → List Char → Option (List Char)
  | [], rest => some rest
  | e :: es, c :: cs => if c = e then expectChars es cs else none
  | _ :: _, [] => none

mutual

def parseValue : Nat → List Char → Option (Json × List Char)
  | 0, _ => none
  | Nat.succ fuel, cs =>
    match skipWs cs with
    | [] => none
    | c :: rest =>
      if c = 'n' then (expectChars [ 'u', 'l', 'l' ] rest).map (fun r => (Json.null, r))
      else if c = 't' then (expectChars [ 'r', 'u', 'e' ] rest).map (fun r => (Json.bool true, r))
      else if c = 'f' then (expectChars [ 'a', 'l', 's', 'e' ] rest).map (fun r => (Json.bool false, r))
      else if c = '"' then (parseStringBody (rest.length + 1) rest []).map (fun p => (Json.str p.1, p.2))
      else if c = '[' then
        match skipWs rest with
        | ']' :: r => some (Json.arr [], r)
        | r => (parseItems fuel r).map (fun p => (Json.arr p.1, p.2))
      else if c = '{' then
        match skipWs rest with
        | '}' :: r => some (Json.obj [], r)
        | r => (parseMembers fuel r).map (fun p => (Json.obj p.1, p.2))
      else parseNumber (c :: rest)

def parseItems : Nat → List Char → Option (List Json × List Char)
  | 0, _ => none
  | Nat.succ fuel, cs =>
    match parseValue fuel cs with
    | none => none
    | some (v, cs2) =>
      match skipWs cs2 with
      | ',' :: cs3 =>
        match parseItems fuel cs3 with
        | some (vs, r) => some (v :: vs, r)
        | none => none
      | ']' :: cs3 => some ([v], cs3)
      | _ => none

def parseMembers : Nat → List Char → Option (List (String × Json) × List Char)
  | 0, _ => none
  | Nat.succ fuel, cs =>
    match skipWs cs with
    | '"' :: cs1 =>
      match parseStringBody (cs1.length + 1) cs1 [] with
      | none => none
      | some (k, cs2) =>
        match skipWs cs2 with
        | ':' :: cs3 =>
          match parseValue fuel cs3 with
          | none => none
          | some (v, cs4) =>
            match skipWs cs4 with
            | ',' :: cs5 =>
              match parseMembers fuel cs5 with
              | some (kvs, r) => some ((k, v) :: kvs, r)
              | none => none
            | '}' :: cs5 => some ([(k, v)], cs5)
            | _ => none
        | _ => none
    | _ => none

end

/-- Model of JSON.parse: none models a thrown SyntaxError (in particular the
empty string does not parse). -/
def jsonParse (s : String) : Option Json :=
  match parseValue (4 * s.length + 8) s.data with
  | some (j, rest) => if (skipWs rest).isEmpty then some j else none
  | none => none

/-! ## JavaScript string helpers -/

/-- Whitespace set of String.prototype.trim. -/
def isJsWs (c : Char) : Bool :=
  let n := c.toNat
  n = 9 || n = 10 || n = 11 || n = 12 || n = 13 || n = 32 || n = 160 ||
  n = 0x1680 || (0x2000 ≤ n && n ≤ 0x200a) || n = 0x2028 || n = 0x2029 ||
  n = 0x202f || n = 0x205f || n = 0x3000 || n = 0xfeff

def dropWhileWs : List Char → List Char
  | [] => []
  | c :: cs => if isJsWs c then dropWhileWs cs else c :: cs

/-- Model of String.prototype.trim. -/
def jsTrim (s : String) : String :=
  String.mk ((dropWhileWs (dropWhileWs s.data.reverse).reverse))

/-- The TPIN validation regex of handleInputSubmit: anchored [0-9] exactly
four times. -/
def isFourDigits (s : String) : Bool :=
  s.data.length = 4 && s.data.all (fun c => c.isDigit)

/-! ## The RPC prompt bridge (session view component)

State of the pending-prompt slot (the React rpcPrompt state) together with
explicit bookkeeping of RPC promise settlements: every inbound call gets a
fresh id; resolved records resolve-ments (call id and payload string),
rejected records calls whose handler threw before installing a prompt. -/

inductive InputField where
  | accountNumber : InputField
  | tpin : InputField
deriving DecidableEq, Repr

/-- The RpcPrompt union of the component, without the resolve/reject
closures (those are modelled by the call id carried next to the prompt in
the slot). chooseAccount keeps the raw parsed prompt value and account
entries exactly as the code does (untyped Json). -/
inductive RpcPrompt where
  | chooseAccount (prompt : Json) (accounts : List Json) : RpcPrompt
  | input (field : InputField) (title : String) (description : String) : RpcPrompt
deriving Repr

/-- The chooseAccount handler body: lenient parse of the payload (empty
payload replaced by the text of an empty object, a parse failure caught and
replaced by the object with accounts [] and prompt the empty string), then
the accounts and prompt extraction. Reading .accounts when the parsed value
is null throws a TypeError (error ()) exactly as the JavaScript does. -/
def handleChooseAccount (payload : String) : Except Unit RpcPrompt :=
  let parsed : Json :=
    match jsonParse (if payload = "" then "\x7b\x7d" else payload) with
    | some j => j
    | none => Json.obj [("accounts", Json.arr []), ("prompt", Json.str "")]
  match parsed with
  | Json.null => Except.error ()
  | _ =>
    let accounts : List Json :=
      match jsGet parsed "accounts" with
      | some (Json.arr xs) => if xs.length > 0 then xs else []
      | _ => []
    let promptv : Json :=
      match jsGet parsed "prompt" with
      | some Json.null => Json.str ""
      | some v => v
      | none => Json.str ""
    Except.ok (RpcPrompt.chooseAccount promptv accounts)

/-- The requestPayeeAccNo handler body: the raw payload string (or a default
when it is empty, the falsy test) becomes the prompt description. -/
def handleRequestPayeeAccNo (payload : String) : RpcPrompt :=
  RpcPrompt.input InputField.accountNumber "Payee account number"
    (if payload = "" then "Enter the payee account number" else payload)

/-- The requestTpin handler body. -/
def handleRequestTpin (payload : String) : RpcPrompt :=
  RpcPrompt.input InputField.tpin "Transaction PIN"
    (if payload = "" then "Enter your transaction PIN" else payload)

/-- Connection-local state: the pending slot (call id and prompt) plus the
settlement ledgers and the fresh-id counter. -/
structure Sys where
  pending : Option (Nat × RpcPrompt)
  resolved : List (Nat × String)
  rejected : List Nat
  nextId : Nat
deriving Repr

def Sys.init : Sys := { pending := none, resolved := [], rejected := [], nextId := 0 }

/-- Cancellation payload of handleAccountCancel: the numeric sentinel -1 in
every relevant field, chosen by the kind of the pending prompt. -/
def cancelJson : RpcPrompt → Json
  | RpcPrompt.input _ _ _ =>
      Json.obj [("tpin", Json.num (-1) 0), ("accountNumber", Json.num (-1) 0)]
  | RpcPrompt.chooseAccount _ _ =>
      Json.obj [("accountId", Json.num (-1) 0)]

/-- Reply object built by handleInputSubmit on a successful submission. -/
def inputReply : InputField → String → Json
  | InputField.accountNumber, v => Json.obj [("accountNumber", Json.str v)]
  | InputField.tpin, v => Json.obj [("tpin", Json.str v)]

/-- handleAccountSelect: resolves the pending chooseAccount call with the
clicked account id; a no-op unless a chooseAccount prompt is pending. -/
def handleAccountSelect (s : Sys) (accountId : String) : Sys :=
  match s.pending with
  | some (i, RpcPrompt.chooseAccount _ _) =>
      { s with pending := none,
               resolved := (i, jsonStringify (Json.obj [("accountId", Json.str accountId)])) :: s.resolved }
  | _ => s

/-- handleAccountCancel: resolves (never rejects) the pending call, whatever
its kind, with the sentinel payload, and clears the slot. -/
def handleAccountCancel (s : Sys) : Sys :=
  match s.pending with
  | none => s
  | some (i, p) =>
      { s with pending := none,
               resolved := (i, jsonStringify (cancelJson p)) :: s.resolved }

/-- handleInputSubmit: trims the buffered input; an empty trim or a TPIN
failing the four-digit regex returns without touching the slot or sending a
reply; otherwise resolves with the field-specific reply carrying the trimmed
value and clears the slot. -/
def handleInputSubmit (s : Sys) (inputValue : String) : Sys :=
  match s.pending with
  | some (i, RpcPrompt.input f _ _) =>
    let trimmed := jsTrim inputValue
    if trimmed = "" then s
    else if f = InputField.tpin ∧ ¬ (isFourDigits trimmed = true) then s
    else
      { s with pending := none,
               resolved := (i, jsonStringify (inputReply f trimmed)) :: s.resolved }
  | _ => s

/-- Events of one connection: the three inbound RPC methods and the three
user actions on the modal. -/
inductive Event where
  | rpcChooseAccount (payload : String) : Event
  | rpcRequestPayeeAccNo (payload : String) : Event
  | rpcRequestTpin (payload : String) : Event
  | selectAccount (accountId : String) : Event
  | cancel : Event
  | submitInput (value : String) : Event

/-- Installs a fresh inbound call: the handler result either becomes the NEW
content of the single slot (setRpcPrompt overwrites whatever was there) or,
if the handler threw, the call is rejected immediately. -/
def arriveWith (s : Sys) (r : Except Unit RpcPrompt) : Sys :=
  match r with
  | Except.ok p => { s with pending := some (s.nextId, p), nextId := s.nextId + 1 }
  | Except.error _ => { s with rejected := s.nextId :: s.rejected, nextId := s.nextId + 1 }

def step (s : Sys) : Event → Sys
  | Event.rpcChooseAccount p => arriveWith s (handleChooseAccount p)
  | Event.rpcRequestPayeeAccNo p => arriveWith s (Except.ok (handleRequestPayeeAccNo p))
  | Event.rpcRequestTpin p => arriveWith s (Except.ok (handleRequestTpin p))
  | Event.selectAccount aid => handleAccountSelect s aid
  | Event.cancel => handleAccountCancel s
  | Event.submitInput v => handleInputSubmit s v

def run (s : Sys) (evs : List Event) : Sys := evs.foldl step s

def resolvedIds (s : Sys) : List Nat := s.resolved.map Prod.fst

/-- The prompt a successful arrival event installs, when its handler does
not throw. -/
def acceptsPrompt : Event → Option RpcPrompt
  | Event.rpcChooseAccount p =>
    match handleChooseAccount p with
    | Except.ok k => some k
    | Except.error _ => none
  | Event.rpcRequestPayeeAccNo p => some (handleRequestPayeeAccNo p)
  | Event.rpcRequestTpin p => some (handleRequestTpin p)
  | _ => none

/-! ## Session store and API routes

MongoDB collections are lists kept in insertion order (findOne returns the
first match in that order); wall-clock time is an explicit parameter in
milliseconds, read once per request (the handlers run in a single tick). -/

structure SessionRec where
  session_id : String
  user_id : String
  created_at : Nat
  expires_at : Nat
  active : Bool
  revoked_at : Option Nat := none
deriving DecidableEq, Repr

structure UserRec where
  user_id : String
  password_hash : String
  name : Option String := none
deriving DecidableEq, Repr

/-- users.findOne with a user_id filter. -/
def findUser : List UserRec → String → Option UserRec
  | [], _ => none
  | u :: rest, uid => if u.user_id = uid then some u else findUser rest uid

/-- The sessions.findOne filter used by POST /connection-details:
session_id and user_id match, active is true and expires_at is strictly in
the future. -/
def sessionMatches (s : SessionRec) (sid uid : String) (now : Nat) : Bool :=
  s.session_id = sid && s.user_id = uid && s.active && decide (now < s.expires_at)

def findSession (store : List SessionRec) (sid uid : String) (now : Nat) : Option SessionRec :=
  match store with
  | [] => none
  | s :: rest => if sessionMatches s sid uid now then some s else findSession rest sid uid now

/-- Session validation: a matching, active, unexpired record exists. -/
def validateSession (store : List SessionRec) (sid uid : String) (now : Nat) : Bool :=
  (findSession store sid uid now).isSome

/-! ### POST /auth/login -/

inductive LoginResp where
  | badRequest : LoginResp
  | unauthorized : LoginResp
  | ok (session_id user_id user_name : String) (expires_at : Nat) : LoginResp
deriving DecidableEq, Repr

/-- The 24-hour session lifetime of the login route, in milliseconds. -/
def dayMs : Nat := 1000 * 60 * 60 * 24

/-- The login route. bcryptCompare and the generated UUID are parameters
(the code calls bcrypt.compare and crypto.randomUUID); user_id and password
arrive from the parsed JSON body as optional strings with the code's falsy
test. Returns the response together with the updated sessions collection. -/
def loginRoute (users : List UserRec) (sessions : List SessionRec)
    (bcryptCompare : String → String → Bool) (uuid : String) (now : Nat)
    (user_id password : Option String) : LoginResp × List SessionRec :=
  match user_id, password with
  | some uid, some pw =>
    if uid = "" ∨ pw = "" then (LoginResp.badRequest, sessions)
    else
      match findUser users uid with
      | none => (LoginResp.unauthorized, sessions)
      | some u =>
        if bcryptCompare pw u.password_hash then
          let sess : SessionRec :=
            { session_id := uuid, user_id := uid, created_at := now,
              expires_at := now + dayMs, active := true, revoked_at := none }
          (LoginResp.ok uuid uid (u.name.getD "") sess.expires_at, sessions ++ [sess])
        else (LoginResp.unauthorized, sessions)
  | _, _ => (LoginResp.badRequest, sessions)

/-! ### POST /auth/logout -/

inductive LogoutResp where
  | badRequest : LogoutResp
  | ok : LogoutResp
deriving DecidableEq, Repr

/-- sessions.updateOne with the session_id filter and the logout update:
flips active off and stamps revoked_at on the FIRST matching record only. -/
def revokeFirst (store : List SessionRec) (sid : String) (now : Nat) : List SessionRec :=
  match store with
  | [] => []
  | s :: rest =>
    if s.session_id = sid then { s with active := false, revoked_at := some now } :: rest
    else s :: revokeFirst rest sid now

/-- The logout route: the body is parsed leniently (a parse failure becomes
the empty object), a falsy session_id is a 400, and otherwise the first
matching session is revoked and ok is returned whether or not any record
matched. Non-string session_id values match no stored record. -/
def logoutRoute (sessions : List SessionRec) (body : String) (now : Nat) :
    LogoutResp × List SessionRec :=
  let parsed : Json := (jsonParse body).getD (Json.obj [])
  match jsGet parsed "session_id" with
  | none => (LogoutResp.badRequest, sessions)
  | some v =>
    if jsTruthy v then
      match v with
      | Json.str sid => (LogoutResp.ok, revokeFirst sessions sid now)
      | _ => (LogoutResp.ok, sessions)
    else (LogoutResp.badRequest, sessions)

/-! ### POST /connection-details -/

structure Env where
  livekitUrl : Option String
  apiKey : Option String
  apiSecret : Option String

/-- The VideoGrant built by createParticipantToken; capabilities the code
does not set stay at their absent defaults. -/
structure VideoGrant where
  room : Option String := none
  roomJoin : Bool := false
  canPublish : Bool := false
  canPublishData : Bool := false
  canSubscribe : Bool := false
  roomCreate : Bool := false
  roomAdmin : Bool := false
  roomList : Bool := false
deriving DecidableEq, Repr

/-- The claim set of the AccessToken the route signs (the JWT signature
itself is abstracted away; the claims are what the spec talks about). -/
structure AccessToken where
  identity : String
  name : String
  metadata : String
  ttl : String
  grants : List VideoGrant
  roomConfigAgent : Option Json := none
deriving Repr

structure ConnectionDetails where
  serverUrl : String
  roomName : String
  participantToken : AccessToken
  participantName : String
deriving Repr

inductive ConnResult where
  | unauthorized (msg : String) : ConnResult
  | serverError (msg : String) : ConnResult
  | ok (d : ConnectionDetails) : ConnResult
deriving Repr

/-- Request shape: the three headers (absent headers are none) and the raw
body text. -/
structure ConnReq where
  userId : Option String
  userName : Option String
  sessionId : Option String
  body : String

/-- JSON.stringify drops object entries whose value is undefined, so the
metadata object carries session_id exactly when the header value was a
defined string (the empty string included). -/
def sessionMeta : Option String → List (String × Json)
  | none => []
  | some sid => [("session_id", Json.str sid)]

def createParticipantToken (identity name metadata roomName : String)
    (agent : Option Json) : AccessToken :=
  { identity := identity, name := name, metadata := metadata, ttl := "15m",
    grants := [{ room := some roomName, roomJoin := true, canPublish := true,
                 canPublishData := true, canSubscribe := true }],
    roomConfigAgent := agent }

/-- Optional-chaining member access: undefined and null bases give
undefined, anything else is plain member access. -/
def optGet (j : Option Json) (k : String) : Option Json :=
  match j with
  | none => none
  | some Json.null => none
  | some v => jsGet v k

/-- Optional-chaining index access; only arrays yield elements (a string
base would yield a character whose member access below is undefined anyway). -/
def optIndex (j : Option Json) (i : Nat) : Option Json :=
  match j with
  | some (Json.arr xs) => xs.get? i
  | _ => none

/-- body?.room_config?.agents?.[0]?.agent_name of the route. -/
def agentNameOf (body : Json) : Option Json :=
  optGet (optIndex (optGet (optGet (some body) "room_config") "agents") 0) "agent_name"

/-- Tail of the route once authentication has passed: parse the body (a
malformed body makes req.json() throw, caught as a 500), extract the agent
directive, build the token and the response. -/
def mintToken (url uid userName : String) (sessionId : Option String) (body : String) :
    ConnResult :=
  match jsonParse body with
  | none => ConnResult.serverError "invalid JSON body"
  | some b =>
    let agent : Option Json :=
      match agentNameOf b with
      | some v => if jsTruthy v then some v else none
      | none => none
    let roomName := "bank_room_" ++ uid
    let token := createParticipantToken uid userName
      (jsonStringify (Json.obj (sessionMeta sessionId))) roomName agent
    ConnResult.ok { serverUrl := url, roomName := roomName,
                    participantToken := token, participantName := userName }

/-- The connection-details route. Mirrors the source order: env checks
(undefined env throws, caught as a 500), the falsy test on the identity
header, the session validation branch entered only for a truthy session
header (with user-name hydration), then the minting tail. -/
def connectionDetails (env : Env) (sessions : List SessionRec)
    (users : List UserRec) (req : ConnReq) (now : Nat) : ConnResult :=
  match env.livekitUrl, env.apiKey, env.apiSecret with
  | some url, some _, some _ =>
    match req.userId with
    | none => ConnResult.unauthorized "Unauthorized: missing user id"
    | some uid =>
      if uid = "" then ConnResult.unauthorized "Unauthorized: missing user id"
      else
        let userName0 := req.userName.getD "user"
        match req.sessionId with
        | none => mintToken url uid userName0 req.sessionId req.body
        | some sid =>
          if sid = "" then mintToken url uid userName0 req.sessionId req.body
          else if validateSession sessions sid uid now then
            let hydrated :=
              match findUser users uid with
              | some u =>
                match u.name with
                | some n => if n = "" then userName0 else n
                | none => userName0
              | none => userName0
            mintToken url uid hydrated req.sessionId req.body
          else ConnResult.unauthorized "Unauthorized: invalid session"
  | _, _, _ => ConnResult.serverError "missing LiveKit configuration"

/-! ## Helper lemmas for the prompt bridge -/

/-- Fields of the reply that the cancellation sentinel fills, per prompt
kind. -/
def relevantFields : RpcPrompt → List String
  | RpcPrompt.chooseAccount _ _ => ["accountId"]
  | RpcPrompt.input _ _ _ => ["accountNumber", "tpin"]

/-- A call id that is strictly below the fresh counter, is not in the slot
and is settled in neither ledger stays that way across any single event:
arrivals mint strictly fresh ids, and settlements only ever record the id
currently in the slot. -/
lemma untouched_step (s : Sys) (e : Event) (i : Nat)
    (hn : i < s.nextId) (hp : s.pending.map Prod.fst ≠ some i)
    (hr : i ∉ resolvedIds s) (hj : i ∉ s.rejected) :
    i < (step s e).nextId ∧ (step s e).pending.map Prod.fst ≠ some i ∧
      i ∉ resolvedIds (step s e) ∧ i ∉ (step s e).rejected := by
  have hfresh : i ≠ s.nextId := Nat.ne_of_lt hn
  have harrive : ∀ r : Except Unit RpcPrompt,
      i < (arriveWith s r).nextId ∧ (arriveWith s r).pending.map Prod.fst ≠ some i ∧
        i ∉ resolvedIds (arriveWith s r) ∧ i ∉ (arriveWith s r).rejected := by
    intro r
    cases r with
    | ok k =>
      refine ⟨by simp [arriveWith]; omega, ?_, ?_, ?_⟩
      · simp only [arriveWith, Option.map_some', ne_eq, Option.some.injEq]
        omega
      · simpa [arriveWith, resolvedIds] using hr
      · simpa [arriveWith] using hj
    | error u =>
      refine ⟨by simp [arriveWith]; omega, ?_, ?_, ?_⟩
      · simpa [arriveWith] using hp
      · simpa [arriveWith, resolvedIds] using hr
      · simp only [arriveWith, List.mem_cons, not_or]
        exact ⟨hfresh, hj⟩
  cases e with
  | rpcChooseAccount p => simpa only [step] using harrive (handleChooseAccount p)
  | rpcRequestPayeeAccNo p => simpa only [step] using harrive (Except.ok (handleRequestPayeeAccNo p))
  | rpcRequestTpin p => simpa only [step] using harrive (Except.ok (handleRequestTpin p))
  | selectAccount aid =>
    simp only [step, handleAccountSelect]
    cases hps : s.pending with
    | none => exact ⟨hn, by rw [hps] at hp ⊢; exact hp, hr, hj⟩
    | some pr =>
      obtain ⟨j, k⟩ := pr
      have hij : j ≠ i := by
        rw [hps] at hp
        simpa using hp
      cases k with
      | chooseAccount prj a =>
        refine ⟨hn, by simp, ?_, hj⟩
        simp only [resolvedIds, List.map_cons, List.mem_cons, not_or]
        exact ⟨fun h => hij h.symm, hr⟩
      | input f t d => exact ⟨hn, by rw [hps] at hp ⊢; exact hp, hr, hj⟩
  | cancel =>
    simp only [step, handleAccountCancel]
    cases hps : s.pending with
    | none => exact ⟨hn, by rw [hps] at hp ⊢; exact hp, hr, hj⟩
    | some pr =>
      obtain ⟨j, k⟩ := pr
      have hij : j ≠ i := by
        rw [hps] at hp
        simpa using hp
      refine ⟨hn, by simp, ?_, hj⟩
      simp only [resolvedIds, List.map_cons, List.mem_cons, not_or]
      exact ⟨fun h => hij h.symm, hr⟩
  | submitInput v =>
    simp only [step, handleInputSubmit]
    cases hps : s.pending with
    | none => exact ⟨hn, by rw [hps] at hp ⊢; exact hp, hr, hj⟩
    | some pr =>
      obtain ⟨j, k⟩ := pr
      have hij : j ≠ i := by
        rw [hps] at hp
        simpa using hp
      cases k with
      | chooseAccount prj a => exact ⟨hn, by rw [hps] at hp ⊢; exact hp, hr, hj⟩
      | input f t d =>
        by_cases h0 : jsTrim v = ""
        · simp only [h0, if_true]
          exact ⟨hn, by rw [hps] at hp ⊢; exact hp, hr, hj⟩
        · by_cases h1 : f = InputField.tpin ∧ ¬ (isFourDigits (jsTrim v) = true)
          · simp only [h0, if_false, if_pos h1]
            exact ⟨hn, by rw [hps] at hp ⊢; exact hp, hr, hj⟩
          · simp only [h0, if_false, if_neg h1]
            refine ⟨hn, by simp, ?_, hj⟩
            simp only [resolvedIds, List.map_cons, List.mem_cons, not_or]
            exact ⟨fun h => hij h.symm, hr⟩

/-- Kernel of the dropped-call argument: the untouched-call invariant is
preserved by any event sequence. -/
lemma untouched_run (evs : List Event) (s : Sys) (i : Nat)
    (hn : i < s.nextId) (hp : s.pending.map Prod.fst ≠ some i)
    (hr : i ∉ resolvedIds s) (hj : i ∉ s.rejected) :
    i ∉ resolvedIds (run s evs) ∧ i ∉ (run s evs).rejected := by
  induction evs generalizing s with
  | nil => exact ⟨hr, hj⟩
  | cons e rest ih =>
    obtain ⟨h1, h2, h3, h4⟩ := untouched_step s e i hn hp hr hj
    exact ih (step s e) h1 h2 h3 h4

/-! ## Claim C1 -/

/-- Trace exhibiting the second-call behaviour: a chooseAccount call (id 0)
is pending, then a requestTpin call (id 1) arrives. -/
def c1s1 : Sys := step Sys.init (Event.rpcChooseAccount "")

def c1s2 : Sys := step c1s1 (Event.rpcRequestTpin "")

/-- Claim C1 is false on the code: while call 0 is AwaitingResponse, a
second RPC call is neither rejected nor queued — it replaces the slot
content (the slot now holds call 1), so two calls are outstanding at once,
and call 0 is silently dropped: it is in neither settlement ledger, and the
user action that next clears the slot settles call 1 only. -/
theorem C1_counterexample :
    c1s1.pending.map Prod.fst = some 0 ∧
    c1s2.pending.map Prod.fst = some 1 ∧
    c1s2.rejected = [] ∧
    resolvedIds c1s2 = [] ∧
    resolvedIds (run c1s2 [Event.cancel]) = [1] ∧
    0 ∉ resolvedIds (run c1s2 [Event.cancel]) ∧
    0 ∉ (run c1s2 [Event.cancel]).rejected := by
  refine ⟨rfl, rfl, rfl, rfl, rfl, ?_, ?_⟩ <;> decide

/-- Amended claim C1: the slot itself holds at most one prompt, but a second
RPC call whose handler accepts its payload while one call is AwaitingResponse
is neither rejected nor queued: it overwrites the slot with the new call, and
the first call's resolution is silently dropped — no sequence of further
events can ever resolve (or reject) it. -/
theorem C1_second_call_overwrites (s : Sys) (i : Nat) (k k2 : RpcPrompt) (e : Event)
    (hp : s.pending = some (i, k)) (ha : acceptsPrompt e = some k2)
    (hr : i ∉ resolvedIds s) (hj : i ∉ s.rejected) (hn : i < s.nextId) :
    (step s e).pending = some (s.nextId, k2) ∧
      ∀ evs, i ∉ resolvedIds (run (step s e) evs) ∧ i ∉ (run (step s e) evs).rejected := by
  have hstep : step s e = { s with pending := some (s.nextId, k2), nextId := s.nextId + 1 } := by
    cases e with
    | rpcChooseAccount p =>
      simp only [acceptsPrompt] at ha
      cases hh : handleChooseAccount p with
      | ok kk =>
        rw [hh] at ha
        cases ha
        simp [step, arriveWith, hh]
      | error u => rw [hh] at ha; cases ha
    | rpcRequestPayeeAccNo p =>
      simp only [acceptsPrompt, Option.some.injEq] at ha
      simp [step, arriveWith, ha]
    | rpcRequestTpin p =>
      simp only [acceptsPrompt, Option.some.injEq] at ha
      simp [step, arriveWith, ha]
    | selectAccount aid => cases ha
    | cancel => cases ha
    | submitInput v => cases ha
  refine ⟨by rw [hstep], fun evs => ?_⟩
  refine untouched_run evs (step s e) i ?_ ?_ ?_ ?_
  · rw [hstep]; exact Nat.lt_succ_of_lt hn
  · rw [hstep]
    simp only [Option.map_some', ne_eq, Option.some.injEq]
    omega
  · rw [hstep]; simpa [resolvedIds] using hr
  · rw [hstep]; simpa using hj

/-- State with one pending tpin call, used to instantiate the amended C1. -/
def c1wS : Sys :=
  { pending := some (0, RpcPrompt.input InputField.tpin "Transaction PIN" "x"),
    resolved := [], rejected := [], nextId := 1 }

theorem C1_witness :
    (step c1wS (Event.rpcRequestTpin "")).pending = some (1, handleRequestTpin "") ∧
      0 ∉ resolvedIds (run (step c1wS (Event.rpcRequestTpin ""))
        [Event.cancel, Event.rpcChooseAccount "x", Event.selectAccount "a"]) ∧
      0 ∉ (run (step c1wS (Event.rpcRequestTpin ""))
        [Event.cancel, Event.rpcChooseAccount "x", Event.selectAccount "a"]).rejected := by
  have h := C1_second_call_overwrites c1wS 0
    (RpcPrompt.input InputField.tpin "Transaction PIN" "x") (handleRequestTpin "")
    (Event.rpcRequestTpin "") rfl rfl (by decide) (by decide) (by decide)
  exact ⟨h.1, (h.2 [Event.cancel, Event.rpcChooseAccount "x", Event.selectAccount "a"]).1,
    (h.2 [Event.cancel, Event.rpcChooseAccount "x", Event.selectAccount "a"]).2⟩

/-! ## Claim C2 -/

/-- State with one pending tpin call, for the C2 counterexample. -/
def c2s : Sys :=
  { pending := some (0, RpcPrompt.input InputField.tpin "Transaction PIN" "Enter your transaction PIN"),
    resolved := [], rejected := [], nextId := 1 }

/-- Claim C2 is false as stated: cancelling a pending tpin prompt resolves
the call with the payload text in which tpin and accountNumber are the JSON
NUMBER -1 (the handler serializes the JavaScript number -1), not the JSON
string "-1" that the claim's quoted sentinel denotes. -/
theorem C2_counterexample :
    (handleAccountCancel c2s).resolved = [(0, "\x7b\"tpin\":-1,\"accountNumber\":-1\x7d")] ∧
    jsGet ((jsonParse "\x7b\"tpin\":-1,\"accountNumber\":-1\x7d").getD Json.null) "tpin" =
      some (Json.num (-1) 0) ∧
    jsGet ((jsonParse "\x7b\"tpin\":-1,\"accountNumber\":-1\x7d").getD Json.null) "accountNumber" =
      some (Json.num (-1) 0) ∧
    Json.num (-1) 0 ≠ Json.str "-1" := by
  exact ⟨rfl, rfl, rfl, fun h => Json.noConfusion h⟩

/-- Amended claim C2: for every prompt kind, cancelling RESOLVES (never
rejects) the held call with the serialization of an object whose relevant
field(s) — accountId for chooseAccount, both accountNumber and tpin for the
input prompts — carry the numeric sentinel -1 (never an empty string and
never an error), and clears the slot. -/
theorem C2_cancel_sentinel (s : Sys) (i : Nat) (k : RpcPrompt)
    (hp : s.pending = some (i, k)) :
    handleAccountCancel s =
      { s with pending := none, resolved := (i, jsonStringify (cancelJson k)) :: s.resolved } ∧
    (handleAccountCancel s).rejected = s.rejected ∧
    ∀ f, f ∈ relevantFields k → jsGet (cancelJson k) f = some (Json.num (-1) 0) := by
  refine ⟨by simp [handleAccountCancel, hp], by simp [handleAccountCancel, hp], ?_⟩
  intro f hf
  cases k with
  | chooseAccount pr a =>
    simp only [relevantFields, List.mem_singleton] at hf
    subst hf
    rfl
  | input fld t d =>
    simp only [relevantFields, List.mem_cons, List.not_mem_nil, or_false] at hf
    rcases hf with h | h <;> subst h <;> rfl

/-- State with one pending chooseAccount call, to instantiate the amended
C2 (the input kind is exercised by the counterexample trace). -/
def c2w : Sys :=
  { pending := some (0, RpcPrompt.chooseAccount (Json.str "Pick") [Json.obj [("id", Json.str "acc1")]]),
    resolved := [], rejected := [], nextId := 1 }

theorem C2_witness :
    handleAccountCancel c2w =
      { c2w with pending := none,
                 resolved := (0, jsonStringify (cancelJson (RpcPrompt.chooseAccount (Json.str "Pick")
                   [Json.obj [("id", Json.str "acc1")]]))) :: c2w.resolved } ∧
    (handleAccountCancel c2w).rejected = c2w.rejected ∧
    ∀ f, f ∈ relevantFields (RpcPrompt.chooseAccount (Json.str "Pick")
        [Json.obj [("id", Json.str "acc1")]]) →
      jsGet (cancelJson (RpcPrompt.chooseAccount (Json.str "Pick")
        [Json.obj [("id", Json.str "acc1")]])) f = some (Json.num (-1) 0) :=
  C2_cancel_sentinel c2w 0 _ rfl

/-! ## Claim C3 -/

/-- Claim C3: a TPIN submission whose (trimmed) value does not match the
four-digit regex is rejected locally — the whole state, pending slot and
reply ledgers included, is unchanged, so the prompt stays AwaitingResponse
and no reply is produced. (The handler validates the trimmed input; C10
covers the trimming itself.) -/
theorem C3_invalid_tpin_rejected (s : Sys) (i : Nat) (t d v : String)
    (hp : s.pending = some (i, RpcPrompt.input InputField.tpin t d))
    (hv : isFourDigits (jsTrim v) = false) :
    handleInputSubmit s v = s := by
  simp only [handleInputSubmit, hp]
  by_cases h0 : jsTrim v = ""
  · simp [h0]
  · simp [h0, hv]

theorem C3_witness :
    isFourDigits (jsTrim "12a4") = false ∧
    handleInputSubmit
      { pending := some (0, RpcPrompt.input InputField.tpin "Transaction PIN" "d"),
        resolved := [], rejected := [], nextId := 1 } "12a4" =
      { pending := some (0, RpcPrompt.input InputField.tpin "Transaction PIN" "d"),
        resolved := [], rejected := [], nextId := 1 } :=
  ⟨rfl, C3_invalid_tpin_rejected _ 0 "Transaction PIN" "d" "12a4" rfl rfl⟩

/-! ## Claim C6 -/

/-- Claim C6 is wrong about the code, and the code (not the spec) is at
fault: a chooseAccount payload of the five characters null parses as JSON
null, and the handler then reads .accounts of null — a TypeError outside
the try/catch, so the RPC call fails (is rejected) instead of degrading to
an empty account list. Malformed (non-JSON) and absent payloads ARE
recovered exactly as the claim says, which shows the crash on null is a
slip against the code's own fallback intent. -/
theorem C6_null_payload_throws :
    jsonParse "null" = some Json.null ∧
    handleChooseAccount "null" = Except.error () ∧
    step { pending := none, resolved := [], rejected := [], nextId := 0 }
        (Event.rpcChooseAccount "null") =
      { pending := none, resolved := [], rejected := [0], nextId := 1 } ∧
    handleChooseAccount "not json" = Except.ok (RpcPrompt.chooseAccount (Json.str "") []) ∧
    handleChooseAccount "" = Except.ok (RpcPrompt.chooseAccount (Json.str "") []) ∧
    handleRequestPayeeAccNo "null" =
      RpcPrompt.input InputField.accountNumber "Payee account number" "null" ∧
    handleRequestTpin "null" = RpcPrompt.input InputField.tpin "Transaction PIN" "null" :=
  ⟨rfl, rfl, rfl, rfl, rfl, rfl, rfl⟩

/-! ## Claim C10 -/

/-- Claim C10: for both input fields, a submission trimming to the empty
string leaves the state (slot and ledgers) unchanged; a successful
submission resolves with the TRIMMED value; and accountNumber accepts any
non-empty trimmed value with no further format validation. -/
theorem C10_input_trimming (s : Sys) (i : Nat) (f : InputField) (t d v : String)
    (hp : s.pending = some (i, RpcPrompt.input f t d)) :
    (jsTrim v = "" → handleInputSubmit s v = s) ∧
    (jsTrim v ≠ "" → (f = InputField.tpin → isFourDigits (jsTrim v) = true) →
      handleInputSubmit s v =
        { s with pending := none,
                 resolved := (i, jsonStringify (inputReply f (jsTrim v))) :: s.resolved }) ∧
    (f = InputField.accountNumber → jsTrim v ≠ "" →
      handleInputSubmit s v =
        { s with pending := none,
                 resolved := (i, jsonStringify (Json.obj [("accountNumber", Json.str (jsTrim v))]))
                   :: s.resolved }) := by
  refine ⟨fun h0 => by simp [handleInputSubmit, hp, h0], fun h0 h4 => ?_, fun hf h0 => ?_⟩
  · cases f with
    | accountNumber => simp [handleInputSubmit, hp, h0]
    | tpin => simp [handleInputSubmit, hp, h0, h4 rfl]
  · subst hf
    simp [handleInputSubmit, hp, h0, inputReply]

theorem C10_witness :
    (jsTrim "   " = "" →
      handleInputSubmit
        { pending := some (0, RpcPrompt.input InputField.accountNumber "Payee account number" "d"),
          resolved := [], rejected := [], nextId := 1 } "   " =
        { pending := some (0, RpcPrompt.input InputField.accountNumber "Payee account number" "d"),
          resolved := [], rejected := [], nextId := 1 }) ∧
    jsTrim "   " = "" ∧
    handleInputSubmit
      { pending := some (0, RpcPrompt.input InputField.accountNumber "Payee account number" "d"),
        resolved := [], rejected := [], nextId := 1 } " ab-12 " =
      { pending := none,
        resolved := [(0, "\x7b\"accountNumber\":\"ab-12\"\x7d")], rejected := [], nextId := 1 } := by
  have h := C10_input_trimming
    { pending := some (0, RpcPrompt.input InputField.accountNumber "Payee account number" "d"),
      resolved := [], rejected := [], nextId := 1 } 0 InputField.accountNumber
    "Payee account number" "d" " ab-12 " rfl
  have h2 := C10_input_trimming
    { pending := some (0, RpcPrompt.input InputField.accountNumber "Payee account number" "d"),
      resolved := [], rejected := [], nextId := 1 } 0 InputField.accountNumber
    "Payee account number" "d" "   " rfl
  refine ⟨h2.1, rfl, ?_⟩
  have h3 := h.2.2 rfl (by decide)
  simpa using h3

/-! ## Helper lemmas for the session store and routes -/

lemma validateSession_iff (store : List SessionRec) (sid uid : String) (now : Nat) :
    validateSession store sid uid now = true ↔
      ∃ s, s ∈ store ∧ s.session_id = sid ∧ s.user_id = uid ∧ s.active = true ∧
        now < s.expires_at := by
  induction store with
  | nil => simp [validateSession, findSession]
  | cons s rest ih =>
    by_cases h : sessionMatches s sid uid now = true
    · simp only [validateSession, findSession, h, if_true, Option.isSome_some, true_iff]
      have hh : s.session_id = sid ∧ s.user_id = uid ∧ s.active = true ∧ now < s.expires_at := by
        simpa [sessionMatches, and_assoc] using h
      exact ⟨s, List.mem_cons_self s rest, hh.1, hh.2.1, hh.2.2.1, hh.2.2.2⟩
    · have h0 : sessionMatches s sid uid now = false := by
        cases hb : sessionMatches s sid uid now with
        | false => rfl
        | true => exact absurd hb h
      simp only [validateSession, findSession, h0, Bool.false_eq_true, if_false]
      rw [show (findSession rest sid uid now).isSome = validateSession rest sid uid now from rfl, ih]
      constructor
      · rintro ⟨x, hx, hrest⟩
        exact ⟨x, List.mem_cons_of_mem s hx, hrest⟩
      · rintro ⟨x, hx, hrest⟩
        rcases List.mem_cons.mp hx with h1 | h1
        · subst h1
          have hm : sessionMatches x sid uid now = true := by
            simp [sessionMatches, hrest.1, hrest.2.1, hrest.2.2.1, hrest.2.2.2]
          exact absurd hm (by simp [h0])
        · exact ⟨x, h1, hrest⟩

lemma validateSession_append (a b : List SessionRec) (sid uid : String) (now : Nat) :
    validateSession (a ++ b) sid uid now =
      (validateSession a sid uid now || validateSession b sid uid now) := by
  induction a with
  | nil => simp [validateSession, findSession]
  | cons s rest ih =>
    by_cases h : sessionMatches s sid uid now = true
    · simp [validateSession, findSession, h]
    · have h0 : sessionMatches s sid uid now = false := by
        cases hb : sessionMatches s sid uid now with
        | false => rfl
        | true => exact absurd hb h
      simpa [validateSession, findSession, h0] using ih

lemma mintToken_ok_inv (url uid un : String) (sid : Option String) (b : String)
    (d : ConnectionDetails) (h : mintToken url uid un sid b = ConnResult.ok d) :
    d.serverUrl = url ∧ d.participantName = un ∧ d.roomName = "bank_room_" ++ uid ∧
      d.participantToken.identity = uid ∧ d.participantToken.name = un ∧
      d.participantToken.ttl = "15m" ∧
      d.participantToken.grants =
        [{ room := some ("bank_room_" ++ uid), roomJoin := true, canPublish := true,
           canPublishData := true, canSubscribe := true, roomCreate := false,
           roomAdmin := false, roomList := false }] ∧
      d.participantToken.metadata = jsonStringify (Json.obj (sessionMeta sid)) := by
  unfold mintToken at h
  cases hb : jsonParse b with
  | none =>
    rw [hb] at h
    cases h
  | some bj =>
    rw [hb] at h
    cases h
    exact ⟨rfl, rfl, rfl, rfl, rfl, rfl, rfl, rfl⟩

lemma mintToken_ne_unauthorized (url uid un : String) (sid : Option String) (b : String)
    (m : String) : mintToken url uid un sid b ≠ ConnResult.unauthorized m := by
  unfold mintToken
  cases jsonParse b <;> simp

lemma mintToken_exists_ok (url uid un : String) (sid : Option String) (b : String)
    (bj : Json) (hb : jsonParse b = some bj) :
    ∃ d, mintToken url uid un sid b = ConnResult.ok d := by
  unfold mintToken
  rw [hb]
  exact ⟨_, rfl⟩

lemma revokeFirst_revokeFirst (l : List SessionRec) (sid : String) (t1 t2 : Nat) :
    revokeFirst (revokeFirst l sid t1) sid t2 = revokeFirst l sid t2 := by
  induction l with
  | nil => rfl
  | cons s rest ih =>
    by_cases h : s.session_id = sid
    · simp [revokeFirst, h]
    · simp [revokeFirst, h, ih]

lemma revokeFirst_shape (l : List SessionRec) (sid : String) (t : Nat) :
    List.Forall₂ (fun a b => b = a ∨ b = { a with active := false, revoked_at := some t })
      l (revokeFirst l sid t) := by
  induction l with
  | nil => exact List.Forall₂.nil
  | cons s rest ih =>
    by_cases h : s.session_id = sid
    · simp only [revokeFirst]
      rw [if_pos h]
      refine List.Forall₂.cons (Or.inr rfl) ?_
      exact (List.forall₂_same).mpr (fun x _ => Or.inl rfl)
    · simp only [revokeFirst]
      rw [if_neg h]
      exact List.Forall₂.cons (Or.inl rfl) ih

lemma revokeFirst_mem (l : List SessionRec) (sid : String) (t : Nat)
    (h : ∃ a, a ∈ l ∧ a.session_id = sid) :
    ∃ b, b ∈ revokeFirst l sid t ∧ b.session_id = sid ∧ b.active = false ∧
      b.revoked_at = some t := by
  induction l with
  | nil =>
    rcases h with ⟨a, ha, _⟩
    cases ha
  | cons s rest ih =>
    by_cases hs : s.session_id = sid
    · refine ⟨{ s with active := false, revoked_at := some t }, ?_, hs, rfl, rfl⟩
      simp [revokeFirst, hs]
    · rcases h with ⟨a, ha, hsid⟩
      rcases List.mem_cons.mp ha with h1 | h1
      · exact absurd (h1 ▸ hsid) hs
      · obtain ⟨b, hb, hrest⟩ := ih ⟨a, h1, hsid⟩
        refine ⟨b, ?_, hrest⟩
        simp [revokeFirst, hs, List.mem_cons, hb]

/-! ## Claim C4 -/

/-- Claim C4: a valid login appends a session whose expires_at is exactly
24 hours (in milliseconds) after its created_at, and session validation —
the findOne filter of POST /connection-details — is true iff a record
matching the session id and user id exists with active true and expires_at
strictly in the future; for the created session this means true up to and
including the instant before expiry and false at or after it. -/
theorem C4_session_lifetime (users : List UserRec) (sessions : List SessionRec)
    (bc : String → String → Bool) (uuid : String) (now : Nat) (uid pw : String) (u : UserRec)
    (hu : uid ≠ "") (hpw : pw ≠ "")
    (hfind : findUser users uid = some u) (hbc : bc pw u.password_hash = true)
    (hfresh : ∀ s ∈ sessions, s.session_id ≠ uuid) :
    ∃ sess : SessionRec,
      loginRoute users sessions bc uuid now (some uid) (some pw) =
        (LoginResp.ok uuid uid (u.name.getD "") sess.expires_at, sessions ++ [sess]) ∧
      sess.created_at = now ∧ sess.expires_at = sess.created_at + dayMs ∧
      sess.active = true ∧ sess.session_id = uuid ∧ sess.user_id = uid ∧
      (∀ t, validateSession (sessions ++ [sess]) uuid uid t = decide (t < sess.expires_at)) ∧
      (∀ store sid uid2 t, validateSession store sid uid2 t = true ↔
        ∃ s, s ∈ store ∧ s.session_id = sid ∧ s.user_id = uid2 ∧ s.active = true ∧
          t < s.expires_at) := by
  refine ⟨{ session_id := uuid, user_id := uid, created_at := now, expires_at := now + dayMs,
            active := true, revoked_at := none }, ?_, rfl, rfl, rfl, rfl, rfl, ?_,
          fun st sid u2 t => validateSession_iff st sid u2 t⟩
  · simp [loginRoute, hu, hpw, hfind, hbc]
  · intro t
    rw [validateSession_append]
    have h1 : validateSession sessions uuid uid t = false := by
      cases hvs : validateSession sessions uuid uid t with
      | false => rfl
      | true =>
        obtain ⟨s, hmem, hsid, _, _, _⟩ := (validateSession_iff sessions uuid uid t).mp hvs
        exact absurd hsid (hfresh s hmem)
    have h2 : validateSession
        [{ session_id := uuid, user_id := uid, created_at := now, expires_at := now + dayMs,
           active := true, revoked_at := none }] uuid uid t = decide (t < now + dayMs) := by
      by_cases ht : t < now + dayMs <;> simp [validateSession, findSession, sessionMatches, ht]
    rw [h1, h2]
    simp

/-- The session the concrete C4 login creates. -/
def c4sess : SessionRec :=
  { session_id := "u1", user_id := "alice", created_at := 1000,
    expires_at := 1000 + dayMs, active := true, revoked_at := none }

/-- Witness for C4 at a concrete login, exercising both expiry boundaries. -/
theorem C4_witness :
    (∃ sess : SessionRec,
      loginRoute [{ user_id := "alice", password_hash := "h", name := some "Alice" }] []
          (fun p hh => decide (p = "secret") && decide (hh = "h")) "u1" 1000
          (some "alice") (some "secret") =
        (LoginResp.ok "u1" "alice" "Alice" sess.expires_at, [] ++ [sess]) ∧
      sess.created_at = 1000 ∧ sess.expires_at = sess.created_at + dayMs ∧
      sess.active = true ∧ sess.session_id = "u1" ∧ sess.user_id = "alice" ∧
      (∀ t, validateSession ([] ++ [sess]) "u1" "alice" t = decide (t < sess.expires_at)) ∧
      (∀ store sid uid2 t, validateSession store sid uid2 t = true ↔
        ∃ s, s ∈ store ∧ s.session_id = sid ∧ s.user_id = uid2 ∧ s.active = true ∧
          t < s.expires_at)) ∧
    validateSession [c4sess] "u1" "alice" (1000 + dayMs - 1) = true ∧
    validateSession [c4sess] "u1" "alice" (1000 + dayMs) = false := by
  refine ⟨?_, by decide, by decide⟩
  exact C4_session_lifetime
    [{ user_id := "alice", password_hash := "h", name := some "Alice" }] []
    (fun p hh => decide (p = "secret") && decide (hh = "h")) "u1" 1000 "alice" "secret"
    { user_id := "alice", password_hash := "h", name := some "Alice" }
    (by decide) (by decide) rfl (by decide) (by simp)

/-! ## Claim C5 -/

/-- Claim C5: every credential the route issues has ttl the fixed 15-minute
value, a single grant scoped to exactly the room bank_room_<user_id> (join,
publish, publish-data and subscribe on that room; no create/admin/list and
no room-free global grant), and metadata equal to the serialization of the
object carrying the session_id header value. -/
theorem C5_credential_scope (env : Env) (sessions : List SessionRec) (users : List UserRec)
    (req : ConnReq) (now : Nat) (d : ConnectionDetails)
    (hok : connectionDetails env sessions users req now = ConnResult.ok d) :
    ∃ uid, req.userId = some uid ∧ uid ≠ "" ∧
      d.roomName = "bank_room_" ++ uid ∧
      d.participantToken.ttl = "15m" ∧
      d.participantToken.identity = uid ∧
      d.participantToken.grants =
        [{ room := some ("bank_room_" ++ uid), roomJoin := true, canPublish := true,
           canPublishData := true, canSubscribe := true, roomCreate := false,
           roomAdmin := false, roomList := false }] ∧
      (∀ g ∈ d.participantToken.grants,
        g.room = some d.roomName ∧ g.roomCreate = false ∧ g.roomAdmin = false ∧
          g.roomList = false) ∧
      d.participantToken.metadata = jsonStringify (Json.obj (sessionMeta req.sessionId)) := by
  obtain ⟨eu, ek, es⟩ := env
  obtain ⟨ru, rn, rs, rb⟩ := req
  cases eu with
  | none => cases hok
  | some url =>
  cases ek with
  | none => cases hok
  | some key =>
  cases es with
  | none => cases hok
  | some sec =>
  cases ru with
  | none => cases hok
  | some uid =>
  have finish : ∀ un : String, uid ≠ "" →
      mintToken url uid un rs rb = ConnResult.ok d →
      ∃ uid2, some uid = some uid2 ∧ uid2 ≠ "" ∧
        d.roomName = "bank_room_" ++ uid2 ∧
        d.participantToken.ttl = "15m" ∧
        d.participantToken.identity = uid2 ∧
        d.participantToken.grants =
          [{ room := some ("bank_room_" ++ uid2), roomJoin := true, canPublish := true,
             canPublishData := true, canSubscribe := true, roomCreate := false,
             roomAdmin := false, roomList := false }] ∧
        (∀ g ∈ d.participantToken.grants,
          g.room = some d.roomName ∧ g.roomCreate = false ∧ g.roomAdmin = false ∧
            g.roomList = false) ∧
        d.participantToken.metadata = jsonStringify (Json.obj (sessionMeta rs)) := by
    intro un hu hm
    obtain ⟨h1, h2, h3, h4, h5, h6, h7, h8⟩ := mintToken_ok_inv url uid un rs rb d hm
    refine ⟨uid, rfl, hu, h3, h6, h4, h7, ?_, h8⟩
    intro g hg
    rw [h7] at hg
    rcases List.mem_cons.mp hg with h9 | h9
    · subst h9
      exact ⟨by rw [h3], rfl, rfl, rfl⟩
    · cases h9
  cases rs with
  | none =>
    simp only [connectionDetails] at hok
    by_cases hu : uid = ""
    · rw [if_pos hu] at hok
      cases hok
    · rw [if_neg hu] at hok
      exact finish _ hu hok
  | some sid =>
    simp only [connectionDetails] at hok
    by_cases hu : uid = ""
    · rw [if_pos hu] at hok
      cases hok
    · rw [if_neg hu] at hok
      by_cases hs : sid = ""
      · rw [if_pos hs] at hok
        exact finish _ hu hok
      · rw [if_neg hs] at hok
        cases hv : validateSession sessions sid uid now with
        | true =>
          rw [hv] at hok
          rw [if_pos rfl] at hok
          exact finish _ hu hok
        | false =>
          rw [hv] at hok
          rw [if_neg (by decide : ¬ ((false : Bool) = true))] at hok
          cases hok

/-- Concrete request for the C5 witness: valid session header supplied. -/
def c5req : ConnReq :=
  { userId := some "alice", userName := none, sessionId := some "sess1", body := "\x7b\x7d" }

def c5sessions : List SessionRec :=
  [{ session_id := "sess1", user_id := "alice", created_at := 0, expires_at := 100,
     active := true, revoked_at := none }]

def c5d : ConnectionDetails :=
  { serverUrl := "wss://x", roomName := "bank_room_alice",
    participantToken := createParticipantToken "alice" "user"
      (jsonStringify (Json.obj [("session_id", Json.str "sess1")])) "bank_room_alice" none,
    participantName := "user" }

/-- Witness for C5 at a concrete issued credential. -/
theorem C5_witness :
    ∃ uid, c5req.userId = some uid ∧ uid ≠ "" ∧
      c5d.roomName = "bank_room_" ++ uid ∧
      c5d.participantToken.ttl = "15m" ∧
      c5d.participantToken.identity = uid ∧
      c5d.participantToken.grants =
        [{ room := some ("bank_room_" ++ uid), roomJoin := true, canPublish := true,
           canPublishData := true, canSubscribe := true, roomCreate := false,
           roomAdmin := false, roomList := false }] ∧
      (∀ g ∈ c5d.participantToken.grants,
        g.room = some c5d.roomName ∧ g.roomCreate = false ∧ g.roomAdmin = false ∧
          g.roomList = false) ∧
      c5d.participantToken.metadata = jsonStringify (Json.obj (sessionMeta c5req.sessionId)) :=
  C5_credential_scope ⟨some "wss://x", some "k", some "s"⟩ c5sessions [] c5req 5 c5d rfl

/-! ## Claim C7 -/

def c7env : Env := ⟨some "wss://x", some "k", some "s"⟩

def c7req : ConnReq := { userId := some "alice", userName := none, sessionId := none, body := "" }

/-- Claim C7 is false as stated: a request that passes both header checks
(user id present, no session header) does NOT always get connection details
back — with a body that is not valid JSON, req.json() throws and the route
answers 500. The 401-iff part of the claim does hold (proved as the amended
theorem); only the unconditional otherwise-clause is wrong. -/
theorem C7_counterexample :
    connectionDetails c7env [] [] c7req 0 = ConnResult.serverError "invalid JSON body" ∧
    (∀ d, connectionDetails c7env [] [] c7req 0 ≠ ConnResult.ok d) ∧
    (∀ m, connectionDetails c7env [] [] c7req 0 ≠ ConnResult.unauthorized m) := by
  have he : connectionDetails c7env [] [] c7req 0 = ConnResult.serverError "invalid JSON body" :=
    rfl
  refine ⟨he, fun d h => ?_, fun m h => ?_⟩ <;> rw [he] at h <;> cases h

/-- The header-level rejection condition of the route: user id missing or
empty, or a non-empty session id header failing validation. -/
def isUnauthorizedReq (sessions : List SessionRec) (req : ConnReq) (now : Nat) : Bool :=
  match req.userId with
  | none => true
  | some uid =>
    if uid = "" then true
    else
      match req.sessionId with
      | none => false
      | some sid => if sid = "" then false else ! validateSession sessions sid uid now

/-- Amended claim C7: with the LiveKit environment configured, the route
answers 401 exactly when the X-User-Id header is missing (or empty) or a
supplied non-empty X-Session-Id fails validation; otherwise it returns the
connection details PROVIDED the request body parses as JSON (a malformed
body is a 500, not a 401). -/
theorem C7_auth_dichotomy (url key sec : String) (sessions : List SessionRec)
    (users : List UserRec) (req : ConnReq) (now : Nat) :
    ((∃ m, connectionDetails ⟨some url, some key, some sec⟩ sessions users req now =
        ConnResult.unauthorized m) ↔ isUnauthorizedReq sessions req now = true) ∧
    (isUnauthorizedReq sessions req now = false →
      ∀ b, jsonParse req.body = some b →
        ∃ d, connectionDetails ⟨some url, some key, some sec⟩ sessions users req now =
          ConnResult.ok d) := by
  obtain ⟨ru, rn, rs, rb⟩ := req
  cases ru with
  | none =>
    refine ⟨?_, ?_⟩
    · simp [connectionDetails, isUnauthorizedReq]
    · intro h
      simp [isUnauthorizedReq] at h
  | some uid =>
  cases rs with
  | none =>
    simp only [connectionDetails, isUnauthorizedReq]
    by_cases hu : uid = ""
    · rw [if_pos hu, if_pos hu]
      exact ⟨by simp, fun h => by cases h⟩
    · rw [if_neg hu, if_neg hu]
      refine ⟨⟨?_, fun h => by cases h⟩, fun _ b hb => mintToken_exists_ok url uid _ none rb b hb⟩
      rintro ⟨m, hm⟩
      exact absurd hm (mintToken_ne_unauthorized url uid _ none rb m)
  | some sid =>
    simp only [connectionDetails, isUnauthorizedReq]
    by_cases hu : uid = ""
    · rw [if_pos hu, if_pos hu]
      exact ⟨by simp, fun h => by cases h⟩
    · rw [if_neg hu, if_neg hu]
      by_cases hs : sid = ""
      · rw [if_pos hs, if_pos hs]
        refine ⟨⟨?_, fun h => by cases h⟩,
          fun _ b hb => mintToken_exists_ok url uid _ (some sid) rb b hb⟩
        rintro ⟨m, hm⟩
        exact absurd hm (mintToken_ne_unauthorized url uid _ (some sid) rb m)
      · rw [if_neg hs, if_neg hs]
        cases hv : validateSession sessions sid uid now with
        | true =>
          simp only [Bool.not_true]
          refine ⟨⟨?_, fun h => by cases h⟩,
            fun _ b hb => mintToken_exists_ok url uid _ (some sid) rb b hb⟩
          rintro ⟨m, hm⟩
          exact absurd hm (mintToken_ne_unauthorized url uid _ (some sid) rb m)
        | false =>
          refine ⟨?_, fun h => ?_⟩
          · simp
          · simp at h

/-- Witness for the amended C7: both sides of the dichotomy at concrete
requests — a missing identity header yields a 401, and a well-formed
authenticated request yields connection details. -/
theorem C7_witness :
    isUnauthorizedReq [] ⟨none, none, none, "\x7b\x7d"⟩ 0 = true ∧
    (∃ m, connectionDetails ⟨some "u", some "k", some "s"⟩ [] [] ⟨none, none, none, "\x7b\x7d"⟩ 0 =
      ConnResult.unauthorized m) ∧
    isUnauthorizedReq [] ⟨some "alice", none, none, "\x7b\x7d"⟩ 0 = false ∧
    (∃ d, connectionDetails ⟨some "u", some "k", some "s"⟩ [] []
      ⟨some "alice", none, none, "\x7b\x7d"⟩ 0 = ConnResult.ok d) := by
  have h1 := C7_auth_dichotomy "u" "k" "s" [] [] ⟨none, none, none, "\x7b\x7d"⟩ 0
  have h2 := C7_auth_dichotomy "u" "k" "s" [] [] ⟨some "alice", none, none, "\x7b\x7d"⟩ 0
  exact ⟨rfl, h1.1.mpr rfl, rfl, h2.2 rfl (Json.obj []) rfl⟩

/-! ## Claim C8 -/

def c8s : SessionRec :=
  { session_id := "sid1", user_id := "alice", created_at := 0, expires_at := 100,
    active := true, revoked_at := none }

def c8body : String := "\x7b\"session_id\":\"sid1\"\x7d"

/-- Claim C8 is false as stated: a repeated logout at a later instant does
NOT leave the session state the same — the updateOne re-stamps revoked_at
with the later call's time (both calls do return ok and active stays
false). -/
theorem C8_counterexample :
    (logoutRoute [c8s] c8body 1).1 = LogoutResp.ok ∧
    (logoutRoute [c8s] c8body 1).2 = [{ c8s with active := false, revoked_at := some 1 }] ∧
    (logoutRoute (logoutRoute [c8s] c8body 1).2 c8body 2).1 = LogoutResp.ok ∧
    (logoutRoute (logoutRoute [c8s] c8body 1).2 c8body 2).2 =
      [{ c8s with active := false, revoked_at := some 2 }] ∧
    (logoutRoute (logoutRoute [c8s] c8body 1).2 c8body 2).2 ≠ (logoutRoute [c8s] c8body 1).2 := by
  refine ⟨rfl, rfl, rfl, rfl, ?_⟩
  decide

/-- Amended claim C8: logout with a truthy session_id answers ok (whether or
not any record matches, so also on an already-inactive session), updates the
first matching record by setting active to false and stamping revoked_at
with the call's time while leaving every other field and record unchanged,
and is idempotent up to the revocation timestamp: repeating the call gives
the same store that a single call at the later time would, hence the exact
same store when repeated at the same instant. -/
theorem C8_logout_semantics (sessions : List SessionRec) (body : String) (sid : String) (t : Nat)
    (hb : jsGet ((jsonParse body).getD (Json.obj [])) "session_id" = some (Json.str sid))
    (hs : sid ≠ "") :
    (logoutRoute sessions body t).1 = LogoutResp.ok ∧
    (logoutRoute sessions body t).2 = revokeFirst sessions sid t ∧
    (∀ t2, revokeFirst (revokeFirst sessions sid t) sid t2 = revokeFirst sessions sid t2) ∧
    revokeFirst (revokeFirst sessions sid t) sid t = revokeFirst sessions sid t ∧
    List.Forall₂ (fun a b => b = a ∨ b = { a with active := false, revoked_at := some t })
      sessions (revokeFirst sessions sid t) ∧
    ((∃ a, a ∈ sessions ∧ a.session_id = sid) →
      ∃ b, b ∈ revokeFirst sessions sid t ∧ b.session_id = sid ∧ b.active = false ∧
        b.revoked_at = some t) := by
  have hroute : logoutRoute sessions body t = (LogoutResp.ok, revokeFirst sessions sid t) := by
    simp [logoutRoute, hb, jsTruthy, hs]
  exact ⟨by rw [hroute], by rw [hroute],
    fun t2 => revokeFirst_revokeFirst sessions sid t t2,
    revokeFirst_revokeFirst sessions sid t t,
    revokeFirst_shape sessions sid t,
    revokeFirst_mem sessions sid t⟩

/-- Witness for the amended C8 at a concrete store and body. -/
theorem C8_witness :
    (logoutRoute [c8s] c8body 5).1 = LogoutResp.ok ∧
    (logoutRoute [c8s] c8body 5).2 = revokeFirst [c8s] "sid1" 5 ∧
    (∀ t2, revokeFirst (revokeFirst [c8s] "sid1" 5) "sid1" t2 = revokeFirst [c8s] "sid1" t2) ∧
    revokeFirst (revokeFirst [c8s] "sid1" 5) "sid1" 5 = revokeFirst [c8s] "sid1" 5 ∧
    List.Forall₂ (fun a b => b = a ∨ b = { a with active := false, revoked_at := some 5 })
      [c8s] (revokeFirst [c8s] "sid1" 5) ∧
    ((∃ a, a ∈ [c8s] ∧ a.session_id = "sid1") →
      ∃ b, b ∈ revokeFirst [c8s] "sid1" 5 ∧ b.session_id = "sid1" ∧ b.active = false ∧
        b.revoked_at = some 5) :=
  C8_logout_semantics [c8s] c8body "sid1" 5 rfl (by decide)

/-! ## Claim C9 -/

/-- Claim C9: when the identity header is present but no session header is
supplied, the route's result does not depend on the session store, the user
collection or the clock at all (no lookup is performed), and — with the
environment configured and a well-formed body — a credential is still
minted, whose metadata serializes to the empty JSON object and hence
carries no session_id. -/
theorem C9_no_session_lookup (env : Env) (sess1 sess2 : List SessionRec)
    (users1 users2 : List UserRec) (req : ConnReq) (now1 now2 : Nat) (uid : String)
    (hu : req.userId = some uid) (hne : uid ≠ "") (hs : req.sessionId = none) :
    connectionDetails env sess1 users1 req now1 = connectionDetails env sess2 users2 req now2 ∧
    (∀ url key sec, env = ⟨some url, some key, some sec⟩ →
      ∀ b, jsonParse req.body = some b →
        ∃ d, connectionDetails env sess1 users1 req now1 = ConnResult.ok d ∧
          d.participantToken.metadata = "\x7b\x7d") := by
  obtain ⟨ru, rn, rs, rb⟩ := req
  simp only at hu hs
  subst hu
  subst hs
  obtain ⟨eu, ek, es⟩ := env
  constructor
  · cases eu <;> cases ek <;> cases es <;> rfl
  · intro url key sec henv b hb
    injection henv with h1 h2 h3
    subst h1
    subst h2
    subst h3
    simp only [connectionDetails]
    rw [if_neg hne]
    unfold mintToken
    rw [hb]
    exact ⟨_, rfl, rfl⟩

def c9req : ConnReq := { userId := some "alice", userName := none, sessionId := none, body := "\x7b\x7d" }

def c9sessA : List SessionRec :=
  [{ session_id := "sid9", user_id := "alice", created_at := 0, expires_at := 10,
     active := true, revoked_at := none }]

/-- Witness for C9: two different stores, user collections and clocks give
the identical response, and the minted metadata is the empty object. -/
theorem C9_witness :
    connectionDetails ⟨some "u", some "k", some "s"⟩ c9sessA
        [{ user_id := "alice", password_hash := "h", name := some "A" }] c9req 3 =
      connectionDetails ⟨some "u", some "k", some "s"⟩ [] [] c9req 99 ∧
    (∀ url key sec, (⟨some "u", some "k", some "s"⟩ : Env) = ⟨some url, some key, some sec⟩ →
      ∀ b, jsonParse c9req.body = some b →
        ∃ d, connectionDetails ⟨some "u", some "k", some "s"⟩ c9sessA
            [{ user_id := "alice", password_hash := "h", name := some "A" }] c9req 3 =
          ConnResult.ok d ∧ d.participantToken.metadata = "\x7b\x7d") :=
  C9_no_session_lookup ⟨some "u", some "k", some "s"⟩ c9sessA []
    [{ user_id := "alice", password_hash := "h", name := some "A" }] [] c9req 3 99 "alice"
    rfl (by decide) rfl

end BankVaani
